import Mathlib

/-!
# Quick Tabs content script: link-hover detection

A shallow embedding of `src/quicktabs-content.js` and a verification of its
hover/clear behaviour.

Modelling conventions.

* A JavaScript string is the list of its UTF-16 code units (`JsString`), so
  that `length`, `substring` and `startsWith` count what JavaScript counts.
* A property or attribute that may be `undefined`/`null` is an `Option`; the
  JavaScript truthiness test on it is `truthy`.
* Object identity (`===` on elements) is equality of the node reference
  `Element.ref`; the properties of a node may differ from one event to the
  next, as the page may change them.
* The properties the script reads (`href`, `title`, `alt`, `textContent`,
  `dataset.url`) are strings when they are present, as on HTML elements.
* The script's four variables, the browser's timer table, the clock, the
  message channel and the console are the fields of `State`; the handlers are
  functions `State → MouseEvent → State`.
* A timer runs only while it is pending and once its deadline is reached
  (`fireTimer`); the browser may run it any time later, so that mouse events
  may come between the deadline and the callback.
* The listeners are attached (`setupEventListeners` has run on an HTTP page).
-/

namespace QuickTabs

/-! ## JavaScript strings -/

/-- A JavaScript string, as the list of its UTF-16 code units. -/
abbrev JsString := List UInt16

/-- UTF-16 code units of one Unicode scalar value. -/
def utf16 (c : Char) : List UInt16 :=
  if c.toNat < 0x10000 then [UInt16.ofNat c.toNat]
  else
    [UInt16.ofNat (0xD800 + (c.toNat - 0x10000) / 0x400),
     UInt16.ofNat (0xDC00 + (c.toNat - 0x10000) % 0x400)]

/-- The JavaScript string written by a literal. -/
def js (s : String) : JsString := (s.toList.map utf16).flatten

/-- JavaScript truthiness of a value that is `undefined`/`null` or a string:
only a non-empty string is truthy. -/
def truthy : Option JsString → Bool
  | some (_ :: _) => true
  | _ => false

/-- The JavaScript operator `a || b` on such values. -/
def jsOr (a b : Option JsString) : Option JsString :=
  if truthy a then a else b

/-- The tail of an or-chain, `a || ''`, which is always a string. -/
def orEmpty : Option JsString → JsString
  | some (c :: cs) => c :: cs
  | _ => []

/-- Method `String.prototype.startsWith` with a literal search string. -/
def startsWith (s : JsString) (search : String) : Bool :=
  (js search).isPrefixOf s

/-- Method `String.prototype.substring(start, end)`; indices beyond the length are
clamped and a start after the end swaps the two, as in JavaScript. -/
def substring (s : JsString) (start stop : Nat) : JsString :=
  (s.take (max start stop)).drop (min start stop)

/-- White space and line terminators of ECMAScript, which `trim` strips. -/
def isJsWhiteSpace (c : UInt16) : Bool :=
  c.toNat ∈ [0x09, 0x0A, 0x0B, 0x0C, 0x0D, 0x20, 0xA0, 0x1680, 0x2028, 0x2029,
    0x202F, 0x205F, 0x3000, 0xFEFF] || (0x2000 ≤ c.toNat && c.toNat ≤ 0x200A)

/-- Method `String.prototype.trim`. -/
def trim (s : JsString) : JsString :=
  ((s.dropWhile isJsWhiteSpace).reverse.dropWhile isJsWhiteSpace).reverse

/-! ## DOM elements and events -/

/-- The object `element.dataset`, of which the script reads `url`. -/
structure Dataset where
  url : Option JsString
deriving DecidableEq

/-- A DOM element as the script observes it. -/
structure Element where
  /-- node identity, what `===` compares -/
  ref : Nat
  /-- local name, what the selector `'a'` matches -/
  localName : String
  /-- the property `element.href` -/
  href : Option JsString
  /-- the property `element.dataset` -/
  dataset : Option Dataset
  /-- content attributes, read by `element.getAttribute` -/
  attributes : List (String × JsString)
  /-- the property `element.title` -/
  title : Option JsString
  /-- the property `element.textContent` -/
  textContent : Option JsString
  /-- the property `element.alt` -/
  alt : Option JsString
deriving DecidableEq

/-- Method `element.getAttribute(name)`: the value of the first attribute of that
name, `null` when there is none. -/
def Element.getAttribute (element : Element) (name : String) : Option JsString :=
  element.attributes.lookup name

/-- A mouse event: its target and the target's ancestors, nearest first. -/
structure MouseEvent where
  target : Element
  ancestors : List Element
deriving DecidableEq

/-- The call `event.target.closest('a')`: the target or its nearest ancestor that is an
anchor, `null` when there is none. -/
def MouseEvent.closestAnchor (event : MouseEvent) : Option Element :=
  (event.target :: event.ancestors).find? (fun e => e.localName == "a")

/-! ## The extractors -/

/-- The constant `urlAttributes` of `getUrlFromElement`. -/
def urlAttributes : List String := ["data-href", "data-link", "data-url"]

/-- The `for` loop of `getUrlFromElement` over the remaining attribute names. -/
def getUrlFromElement.loop (element : Element) : List String → Option JsString
  | [] => none
  | attr :: rest =>
    match element.getAttribute attr with
    | some value =>
      if truthy (some value) && startsWith value "http" then some value
      else getUrlFromElement.loop element rest
    | none => getUrlFromElement.loop element rest

/-- Function `getUrlFromElement`; `none` is `null`. -/
def getUrlFromElement (element : Element) : Option JsString :=
  if truthy element.href then element.href
  else
    match element.dataset with
    | some dataset =>
      if truthy dataset.url then dataset.url
      else getUrlFromElement.loop element urlAttributes
    | none => getUrlFromElement.loop element urlAttributes

/-- Function `getTitleFromElement`. -/
def getTitleFromElement (element : Element) : JsString :=
  let title :=
    orEmpty (jsOr (jsOr (jsOr element.title (element.getAttribute "aria-label"))
      (element.textContent.map trim)) element.alt)
  substring title 0 200

/-! ## Messages, timers and the state -/

/-- A message handed to `sendAsyncMessage`: its name and its payload object,
as the list of the payload's properties. -/
structure Message where
  name : String
  payload : List (String × JsString)
deriving DecidableEq

/-- The message `'CopyURLHover:Hover'` with payload `url`, `title`. -/
def Message.hover (url title : JsString) : Message :=
  ⟨"CopyURLHover:Hover", [("url", url), ("title", title)]⟩

/-- The message `'CopyURLHover:Clear'` with the empty payload. -/
def Message.clear : Message :=
  ⟨"CopyURLHover:Clear", []⟩

/-- The global `sendAsyncMessage` as the script finds it: not a function, a
function that delivers, or a function that throws. -/
inductive Channel where
  | absent
  | working
  | failing
deriving DecidableEq

/-- A handle returned by `setTimeout`. The browser's handles are integers
greater than zero, so a stored handle is always truthy; `index` numbers the
handles in the order they are issued. -/
structure TimerHandle where
  index : Nat
deriving DecidableEq

/-- A pending timer of the browser's timer table: the callback scheduled by
`handleMouseOver`, with what its closure holds. -/
structure Timer where
  handle : TimerHandle
  /-- clock reading from which the callback may run -/
  deadline : Nat
  /-- the variable `url` of the scheduling call -/
  url : JsString
  /-- the variable `linkElement` of the scheduling call, as the element was
  then; the callback does not read it -/
  linkElement : Element
deriving DecidableEq

/-- The script's variables and the part of the environment it acts on. -/
structure State where
  /-- reference of the tracked element, `none` for `null` -/
  currentHoveredLink : Option Nat
  currentHoveredUrl : Option JsString
  currentHoveredTitle : Option JsString
  hoverTimeout : Option TimerHandle
  /-- milliseconds elapsed -/
  clock : Nat
  /-- index of the next handle `setTimeout` issues -/
  nextHandle : Nat
  /-- pending timers -/
  timers : List Timer
  channel : Channel
  /-- messages delivered on the channel, oldest first -/
  sent : List Message
  /-- lines written by `console.error` -/
  console : List String
deriving DecidableEq

/-- The constant `HOVER_DELAY`, in milliseconds. -/
def HOVER_DELAY : Nat := 100

/-- The state when the script has just been loaded. -/
def State.initial (channel : Channel) : State :=
  { currentHoveredLink := none, currentHoveredUrl := none, currentHoveredTitle := none,
    hoverTimeout := none, clock := 0, nextHandle := 1, timers := [], channel := channel,
    sent := [], console := [] }

/-- The call `clearTimeout(handle)`: the timer of that handle is no longer pending; no
effect when it is not pending. -/
def clearTimeout (s : State) (handle : TimerHandle) : State :=
  { s with timers := s.timers.filter (fun t => t.handle != handle) }

/-- The call `setTimeout(callback, delay)` of `handleMouseOver`, whose callback
holds `url` and `linkElement`: a fresh handle is returned and the timer is
pending from now on. -/
def setTimeout (s : State) (url : JsString) (linkElement : Element) (delay : Nat) :
    TimerHandle × State :=
  (⟨s.nextHandle⟩,
   { s with
     nextHandle := s.nextHandle + 1
     timers := s.timers ++ [⟨⟨s.nextHandle⟩, s.clock + delay, url, linkElement⟩] })

/-- Function `sendHoverMessage`. -/
def sendHoverMessage (s : State) (url : JsString) (title : Option JsString) : State :=
  match s.channel with
  | .working => { s with sent := s.sent ++ [Message.hover url (orEmpty title)] }
  | .absent =>
    { s with console := s.console ++ ["QuickTabs content script: sendAsyncMessage not available"] }
  | .failing =>
    { s with console := s.console ++ ["QuickTabs content script: Error sending hover message:"] }

/-- Function `sendClearMessage`. -/
def sendClearMessage (s : State) : State :=
  match s.channel with
  | .working => { s with sent := s.sent ++ [Message.clear] }
  | .absent =>
    { s with console := s.console ++ ["QuickTabs content script: sendAsyncMessage not available"] }
  | .failing =>
    { s with console := s.console ++ ["QuickTabs content script: Error sending clear message:"] }

/-! ## The handlers -/

/-- The link element `handleMouseOver` resolves: the nearest enclosing anchor,
else the target itself when `getUrlFromElement` finds a URL on it. -/
def resolveOver (event : MouseEvent) : Option Element :=
  match event.closestAnchor with
  | some linkElement => some linkElement
  | none => if truthy (getUrlFromElement event.target) then some event.target else none

/-- The link element `handleMouseOut` resolves: `element.closest('a') || element`. -/
def resolveOut (event : MouseEvent) : Element :=
  match event.closestAnchor with
  | some linkElement => linkElement
  | none => event.target

/-- Function `handleMouseOver`. -/
def handleMouseOver (s : State) (event : MouseEvent) : State :=
  match resolveOver event with
  | none => s
  | some linkElement =>
    match getUrlFromElement linkElement with
    | none => s
    | some url =>
      if !truthy (some url) || !startsWith url "http" then s
      else if s.currentHoveredLink = some linkElement.ref ∧ s.currentHoveredUrl = some url then s
      else
        let s1 := { s with
          currentHoveredLink := some linkElement.ref
          currentHoveredUrl := some url
          currentHoveredTitle := some (getTitleFromElement linkElement) }
        let s2 := match s1.hoverTimeout with
          | some handle => clearTimeout s1 handle
          | none => s1
        let scheduled := setTimeout s2 url linkElement HOVER_DELAY
        { scheduled.2 with hoverTimeout := some scheduled.1 }

/-- Function `handleMouseOut`. -/
def handleMouseOut (s : State) (event : MouseEvent) : State :=
  let linkElement := resolveOut event
  if some linkElement.ref = s.currentHoveredLink then
    let s1 := match s.hoverTimeout with
      | some handle => { clearTimeout s handle with hoverTimeout := none }
      | none => s
    sendClearMessage { s1 with
      currentHoveredLink := none
      currentHoveredUrl := none
      currentHoveredTitle := none }
  else s

/-- The browser runs the callback of the pending timer `handle`, which it may
do once the timer's deadline is reached: the timer leaves the table and the
callback calls `sendHoverMessage(url, currentHoveredTitle)`. Nothing happens
when no such timer is pending or its deadline is not reached. -/
def fireTimer (s : State) (handle : TimerHandle) : State :=
  match s.timers.find? (fun t => t.handle == handle) with
  | none => s
  | some timer =>
    if timer.deadline ≤ s.clock then
      sendHoverMessage (clearTimeout s handle) timer.url s.currentHoveredTitle
    else s

/-- What can happen to the script. -/
inductive Event where
  | mouseover (event : MouseEvent)
  | mouseout (event : MouseEvent)
  /-- time passes -/
  | elapse (ms : Nat)
  /-- the browser runs a due timer -/
  | timeout (handle : TimerHandle)
deriving DecidableEq

/-- One step of the script. -/
def step (s : State) : Event → State
  | .mouseover event => handleMouseOver s event
  | .mouseout event => handleMouseOut s event
  | .elapse ms => { s with clock := s.clock + ms }
  | .timeout handle => fireTimer s handle

/-- The state after a sequence of events. -/
def run (s : State) (events : List Event) : State :=
  events.foldl step s

/-- States the script can be in: reached from the initial state by mouse
events, passing time and timers running. -/
def Reachable (s : State) : Prop :=
  ∃ channel events, s = run (State.initial channel) events

/-! ## The extractors as the specification words them -/

/-- The URL resolution order in the specification's words: the resolved href
if present and non-empty; otherwise the custom data attribute named `url` if
non-empty; otherwise the first of `data-href`, `data-link`, `data-url` whose
value is non-empty and begins with `http`; otherwise none. -/
def getUrlFromElement_spec (element : Element) : Option JsString :=
  match element.href with
  | some (c :: cs) => some (c :: cs)
  | _ =>
    match element.dataset.bind Dataset.url with
    | some (c :: cs) => some (c :: cs)
    | _ =>
      (["data-href", "data-link", "data-url"].filterMap element.getAttribute).find?
        (fun value => value ≠ [] ∧ startsWith value "http")

/-- The value the title is cut from, in the specification's words: the first
non-empty one of title attribute, `aria-label` attribute, trimmed text content
and alt attribute, and the empty string when there is none. -/
def chosenTitle (element : Element) : JsString :=
  (([element.title, element.getAttribute "aria-label", element.textContent.map trim,
      element.alt].filterMap id).find? (fun value => value ≠ [])).getD []

/-! ## Predicates on states -/

/-- Whether `handleMouseOver` accepts the URL of a resolved link element: it is
a URL that begins with `http`. -/
def hasHttpUrl (element : Element) : Bool :=
  match getUrlFromElement element with
  | some url => startsWith url "http"
  | none => false

/-- The hover state is empty: nothing tracked, no stored handle, no pending
timer. -/
def State.isEmpty (s : State) : Prop :=
  s.currentHoveredLink = none ∧ s.currentHoveredUrl = none ∧ s.currentHoveredTitle = none
    ∧ s.hoverTimeout = none ∧ s.timers = []

/-- The timers the script leaves pending when it cancels the stored handle. -/
def timersAfterCancel (s : State) : List Timer :=
  match s.hoverTimeout with
  | some handle => s.timers.filter (fun t => t.handle != handle)
  | none => s.timers

/-- The state in which `handleMouseOver` leaves `s` when it tracks
`linkElement` with `url` and schedules the callback. -/
def tracking (s : State) (linkElement : Element) (url : JsString) : State :=
  { s with
    currentHoveredLink := some linkElement.ref
    currentHoveredUrl := some url
    currentHoveredTitle := some (getTitleFromElement linkElement)
    hoverTimeout := some ⟨s.nextHandle⟩
    nextHandle := s.nextHandle + 1
    timers := timersAfterCancel s ++ [⟨⟨s.nextHandle⟩, s.clock + HOVER_DELAY, url, linkElement⟩] }

/-- A pending timer belongs to the current hover: its handle is the stored one
and the tracked element, URL and title are those of its scheduling call. -/
def TimerCurrent (s : State) (t : Timer) : Prop :=
  s.hoverTimeout = some t.handle
    ∧ s.currentHoveredLink = some t.linkElement.ref
    ∧ s.currentHoveredUrl = some t.url
    ∧ s.currentHoveredTitle = some (getTitleFromElement t.linkElement)
    ∧ getUrlFromElement t.linkElement = some t.url
    ∧ startsWith t.url "http" = true

/-- The invariant of the reachable states. -/
def Inv (s : State) : Prop :=
  s.timers.length ≤ 1
    ∧ (∀ t ∈ s.timers, TimerCurrent s t)
    ∧ (∀ t ∈ s.timers, t.handle.index < s.nextHandle)
    ∧ (∀ m ∈ s.sent, m = Message.clear ∨
        ∃ url title, m = Message.hover url title ∧ startsWith url "http" = true)

/-- Events of the timer table alone: time passing and timers running. -/
def Event.isTimerEvent : Event → Bool
  | .elapse _ => true
  | .timeout _ => true
  | _ => false

/-! ## Sample elements -/

/-- The anchor `<a href="https://example.com" title="Example">text</a>`: its
`href` attribute is the text as written, its `href` property the URL as the
browser serialises it, `https://example.com/`. -/
def exampleAnchor : Element :=
  { ref := 1, localName := "a", href := some (js "https://example.com/"),
    dataset := some ⟨none⟩,
    attributes := [("href", js "https://example.com"), ("title", js "Example")],
    title := some (js "Example"), textContent := some (js "text"), alt := none }

/-- The anchor `<a href="mailto:a@b.c">mail</a>`. -/
def mailtoAnchor : Element :=
  { ref := 2, localName := "a", href := some (js "mailto:a@b.c"),
    dataset := some ⟨none⟩, attributes := [("href", js "mailto:a@b.c")],
    title := some [], textContent := some (js "mail"), alt := none }

/-- The element `<span data-href="http://x.test/">x</span>`. -/
def linkSpan : Element :=
  { ref := 3, localName := "span", href := none,
    dataset := some ⟨none⟩, attributes := [("data-href", js "http://x.test/")],
    title := some [], textContent := some (js "x"), alt := none }

/-- The anchor `<a href="https://other.test/">other</a>`. -/
def otherAnchor : Element :=
  { ref := 4, localName := "a", href := some (js "https://other.test/"),
    dataset := some ⟨none⟩, attributes := [("href", js "https://other.test/")],
    title := some [], textContent := some (js "other"), alt := none }

/-! ## Lemmas on the extractors -/

theorem loop_eq_find (element : Element) (names : List String) :
    getUrlFromElement.loop element names =
      (names.filterMap element.getAttribute).find?
        (fun value => value ≠ [] ∧ startsWith value "http") := by
  induction names with
  | nil => rfl
  | cons attr rest ih =>
    simp only [getUrlFromElement.loop, List.filterMap_cons]
    cases hv : element.getAttribute attr with
    | none => simpa using ih
    | some value =>
      cases value with
      | nil => simpa [truthy] using ih
      | cons c cs =>
        by_cases hp : startsWith (c :: cs) "http" = true
        · simp [truthy, hp]
        · simp [truthy, hp, ih]

theorem getUrlFromElement_eq_spec (element : Element) :
    getUrlFromElement element = getUrlFromElement_spec element := by
  unfold getUrlFromElement getUrlFromElement_spec
  rcases hh : element.href with _ | ⟨_ | ⟨c, cs⟩⟩ <;>
    rcases hd : element.dataset with _ | ⟨_ | ⟨_ | ⟨d, ds⟩⟩⟩ <;>
    simp [truthy, loop_eq_find, urlAttributes]

theorem substring_zero (s : JsString) (n : Nat) : substring s 0 n = s.take n := by
  simp [substring]

theorem orEmpty_chain_eq_chosen (element : Element) :
    orEmpty (jsOr (jsOr (jsOr element.title (element.getAttribute "aria-label"))
      (element.textContent.map trim)) element.alt) = chosenTitle element := by
  unfold chosenTitle
  rcases element.title with _ | ⟨_ | ⟨a, as⟩⟩ <;>
    rcases element.getAttribute "aria-label" with _ | ⟨_ | ⟨b, bs⟩⟩ <;>
    rcases element.textContent.map trim with _ | ⟨_ | ⟨c, cs⟩⟩ <;>
    rcases element.alt with _ | ⟨_ | ⟨d, ds⟩⟩ <;>
    simp [jsOr, truthy, orEmpty]

theorem getTitleFromElement_eq_take (element : Element) :
    getTitleFromElement element = (chosenTitle element).take 200 := by
  unfold getTitleFromElement
  simp only [substring_zero, orEmpty_chain_eq_chosen]

/-! ## C8 and C9: the extractors -/

/-- C8: for every element, `getTitleFromElement` returns the first 200
characters (UTF-16 code units) of the first non-empty value among title,
`aria-label`, trimmed text content and alt, the empty string when there is
none; so the result has at most 200 characters, is the chosen value unchanged
when that has at most 200, and has exactly 200 when the chosen value is
longer. -/
theorem getTitleFromElement_first_nonempty_cut (element : Element) :
    getTitleFromElement element = (chosenTitle element).take 200
    ∧ (getTitleFromElement element).length ≤ 200
    ∧ (if (chosenTitle element).length ≤ 200
        then getTitleFromElement element = chosenTitle element
        else (getTitleFromElement element).length = 200) := by
  rw [getTitleFromElement_eq_take]
  refine ⟨rfl, by simp, ?_⟩
  split
  · next h => exact List.take_of_length_le h
  · next h => simp only [List.length_take]; omega

/-- C9: for every element, `getUrlFromElement` returns, first match wins, the
href if present and non-empty, else the `url` data property if non-empty, else
the first of `data-href`, `data-link`, `data-url` whose value is non-empty and
begins with `http`, else null; a non-empty href, and with no href a non-empty
`url` data property, is returned whatever its scheme. -/
theorem getUrlFromElement_resolution_order (element : Element) :
    getUrlFromElement element = getUrlFromElement_spec element
    ∧ (∀ c cs, getUrlFromElement { element with href := some (c :: cs) } = some (c :: cs))
    ∧ (∀ c cs, getUrlFromElement
        { element with href := none, dataset := some ⟨some (c :: cs)⟩ } = some (c :: cs))
    ∧ (∀ c cs, getUrlFromElement
        { element with href := some [], dataset := some ⟨some (c :: cs)⟩ } = some (c :: cs)) := by
  refine ⟨getUrlFromElement_eq_spec element, ?_, ?_, ?_⟩ <;>
    intro c cs <;> simp [getUrlFromElement, truthy]

/-! ## Lemmas on the handlers -/

theorem startsWith_http_ne_nil (url : JsString) (h : startsWith url "http" = true) :
    truthy (some url) = true := by
  cases url with
  | nil => revert h; decide
  | cons c cs => rfl

theorem handleMouseOver_tracking (s : State) (event : MouseEvent) (linkElement : Element)
    (url : JsString) (hres : resolveOver event = some linkElement)
    (hurl : getUrlFromElement linkElement = some url) (hhttp : startsWith url "http" = true)
    (hnew : ¬ (s.currentHoveredLink = some linkElement.ref ∧ s.currentHoveredUrl = some url)) :
    handleMouseOver s event = tracking s linkElement url := by
  have ht := startsWith_http_ne_nil url hhttp
  simp only [handleMouseOver, hres, hurl, ht, hhttp, hnew]
  cases hto : s.hoverTimeout <;>
    simp [tracking, timersAfterCancel, hto, clearTimeout, setTimeout]

theorem handleMouseOver_eq (s : State) (event : MouseEvent) :
    handleMouseOver s event = s ∨
      ∃ linkElement url, resolveOver event = some linkElement
        ∧ getUrlFromElement linkElement = some url
        ∧ startsWith url "http" = true
        ∧ ¬ (s.currentHoveredLink = some linkElement.ref ∧ s.currentHoveredUrl = some url)
        ∧ handleMouseOver s event = tracking s linkElement url := by
  cases hr : resolveOver event with
  | none => left; simp only [handleMouseOver, hr]
  | some linkElement =>
    cases hu : getUrlFromElement linkElement with
    | none => left; simp only [handleMouseOver, hr, hu]
    | some url =>
      by_cases hh : startsWith url "http" = true
      · by_cases hd : s.currentHoveredLink = some linkElement.ref ∧ s.currentHoveredUrl = some url
        · left
          simp [handleMouseOver, hr, hu, hd]
        · right
          exact ⟨linkElement, url, rfl, hu, hh, hd,
            handleMouseOver_tracking s event linkElement url hr hu hh hd⟩
      · left
        simp [handleMouseOver, hr, hu, hh]

theorem handleMouseOut_eq (s : State) (event : MouseEvent) :
    handleMouseOut s event =
      if some (resolveOut event).ref = s.currentHoveredLink then
        sendClearMessage { s with
          currentHoveredLink := none
          currentHoveredUrl := none
          currentHoveredTitle := none
          hoverTimeout := none
          timers := timersAfterCancel s }
      else s := by
  unfold handleMouseOut
  by_cases h : some (resolveOut event).ref = s.currentHoveredLink
  · simp only [h, if_true]
    cases hto : s.hoverTimeout <;> simp [timersAfterCancel, hto, clearTimeout]
  · simp only [h, if_false]

theorem sendClearMessage_fields (s : State) :
    (sendClearMessage s).currentHoveredLink = s.currentHoveredLink
    ∧ (sendClearMessage s).currentHoveredUrl = s.currentHoveredUrl
    ∧ (sendClearMessage s).currentHoveredTitle = s.currentHoveredTitle
    ∧ (sendClearMessage s).hoverTimeout = s.hoverTimeout
    ∧ (sendClearMessage s).clock = s.clock
    ∧ (sendClearMessage s).nextHandle = s.nextHandle
    ∧ (sendClearMessage s).timers = s.timers
    ∧ (sendClearMessage s).channel = s.channel
    ∧ (sendClearMessage s).sent =
        if s.channel = Channel.working then s.sent ++ [Message.clear] else s.sent := by
  unfold sendClearMessage
  cases h : s.channel <;> simp

theorem sendClearMessage_console (s : State) :
    (sendClearMessage s).console =
      match s.channel with
      | .working => s.console
      | .absent =>
        s.console ++ ["QuickTabs content script: sendAsyncMessage not available"]
      | .failing =>
        s.console ++ ["QuickTabs content script: Error sending clear message:"] := by
  unfold sendClearMessage
  cases h : s.channel <;> simp

theorem sendHoverMessage_fields (s : State) (url : JsString) (title : Option JsString) :
    (sendHoverMessage s url title).currentHoveredLink = s.currentHoveredLink
    ∧ (sendHoverMessage s url title).currentHoveredUrl = s.currentHoveredUrl
    ∧ (sendHoverMessage s url title).currentHoveredTitle = s.currentHoveredTitle
    ∧ (sendHoverMessage s url title).hoverTimeout = s.hoverTimeout
    ∧ (sendHoverMessage s url title).clock = s.clock
    ∧ (sendHoverMessage s url title).nextHandle = s.nextHandle
    ∧ (sendHoverMessage s url title).timers = s.timers
    ∧ (sendHoverMessage s url title).channel = s.channel
    ∧ (sendHoverMessage s url title).sent =
        if s.channel = Channel.working then s.sent ++ [Message.hover url (orEmpty title)]
        else s.sent := by
  unfold sendHoverMessage
  cases h : s.channel <;> simp

theorem fireTimer_eq (s : State) (handle : TimerHandle) :
    fireTimer s handle = s ∨
      ∃ timer, timer ∈ s.timers ∧ timer.handle = handle ∧ timer.deadline ≤ s.clock
        ∧ fireTimer s handle =
            sendHoverMessage (clearTimeout s handle) timer.url s.currentHoveredTitle := by
  unfold fireTimer
  cases hf : s.timers.find? (fun t => t.handle == handle) with
  | none => exact Or.inl rfl
  | some timer =>
    by_cases hd : timer.deadline ≤ s.clock
    · right
      refine ⟨timer, List.mem_of_find?_eq_some hf, ?_, hd, by simp [hd]⟩
      simpa using List.find?_some hf
    · left
      simp [hd]

/-! ## The invariant -/

theorem timersAfterCancel_eq_nil (s : State) (h : Inv s) : timersAfterCancel s = [] := by
  obtain ⟨_, hcur, _, _⟩ := h
  unfold timersAfterCancel
  cases hto : s.hoverTimeout with
  | none =>
    cases hts : s.timers with
    | nil => rfl
    | cons t ts =>
      have := (hcur t (by simp [hts])).1
      simp [hto] at this
  | some handle =>
    simp only [List.filter_eq_nil_iff]
    intro t ht
    have := (hcur t ht).1
    rw [hto] at this
    simp at this
    simp [this]

theorem inv_initial (channel : Channel) : Inv (State.initial channel) := by
  simp [Inv, State.initial]

theorem inv_tracking (s : State) (linkElement : Element) (url : JsString) (h : Inv s)
    (hu : getUrlFromElement linkElement = some url) (hh : startsWith url "http" = true) :
    Inv (tracking s linkElement url) := by
  have hnil := timersAfterCancel_eq_nil s h
  obtain ⟨_, _, _, hsent⟩ := h
  refine ⟨?_, ?_, ?_, ?_⟩
  · simp [tracking, hnil]
  · intro t ht
    simp only [tracking, hnil, List.nil_append, List.mem_singleton] at ht
    subst ht
    exact ⟨rfl, rfl, rfl, rfl, hu, hh⟩
  · intro t ht
    simp only [tracking, hnil, List.nil_append, List.mem_singleton] at ht
    subst ht
    simp [tracking]
  · exact hsent

theorem inv_handleMouseOver (s : State) (event : MouseEvent) (h : Inv s) :
    Inv (handleMouseOver s event) := by
  rcases handleMouseOver_eq s event with he | ⟨linkElement, url, _, hu, hh, _, he⟩
  · rw [he]; exact h
  · rw [he]; exact inv_tracking s linkElement url h hu hh

theorem inv_handleMouseOut (s : State) (event : MouseEvent) (h : Inv s) :
    Inv (handleMouseOut s event) := by
  rw [handleMouseOut_eq]
  split
  · have hnil := timersAfterCancel_eq_nil s h
    obtain ⟨_, _, _, hsent⟩ := h
    obtain ⟨_, _, _, _, _, _, h7, _, h9⟩ := sendClearMessage_fields
      { s with currentHoveredLink := none, currentHoveredUrl := none,
               currentHoveredTitle := none, hoverTimeout := none,
               timers := timersAfterCancel s }
    refine ⟨?_, ?_, ?_, ?_⟩
    · rw [h7]; simp [hnil]
    · rw [h7]; simp [hnil]
    · rw [h7]; simp [hnil]
    · rw [h9]
      intro m hm
      split at hm
      · rcases List.mem_append.1 hm with hm | hm
        · exact hsent m hm
        · left; simpa using hm
      · exact hsent m hm
  · exact h

theorem inv_fireTimer (s : State) (handle : TimerHandle) (h : Inv s) :
    Inv (fireTimer s handle) := by
  rcases fireTimer_eq s handle with he | ⟨timer, hmem, hhandle, _, he⟩
  · rw [he]; exact h
  · rw [he]
    have hnil : (clearTimeout s handle).timers = [] := by
      have hto := (h.2.1 timer hmem).1
      have := timersAfterCancel_eq_nil s h
      simpa [timersAfterCancel, hto, hhandle, clearTimeout] using this
    obtain ⟨_, _, _, _, _, _, h7, _, h9⟩ :=
      sendHoverMessage_fields (clearTimeout s handle) timer.url s.currentHoveredTitle
    refine ⟨?_, ?_, ?_, ?_⟩
    · rw [h7]; simp [hnil]
    · rw [h7]; simp [hnil]
    · rw [h7]; simp [hnil]
    · rw [h9]
      intro m hm
      split at hm
      · rcases List.mem_append.1 hm with hm | hm
        · exact h.2.2.2 m hm
        · right
          exact ⟨timer.url, orEmpty s.currentHoveredTitle, by simpa using hm,
            (h.2.1 timer hmem).2.2.2.2.2⟩
      · exact h.2.2.2 m hm

theorem inv_step (s : State) (e : Event) (h : Inv s) : Inv (step s e) := by
  cases e with
  | mouseover event => exact inv_handleMouseOver s event h
  | mouseout event => exact inv_handleMouseOut s event h
  | elapse ms => exact h
  | timeout handle => exact inv_fireTimer s handle h

theorem inv_run (events : List Event) (s : State) (h : Inv s) : Inv (run s events) := by
  induction events generalizing s with
  | nil => exact h
  | cons e rest ih => exact ih (step s e) (inv_step s e h)

theorem inv_of_reachable (s : State) (h : Reachable s) : Inv s := by
  obtain ⟨channel, events, rfl⟩ := h
  exact inv_run events _ (inv_initial channel)

/-! ## Hovering and leaving -/

theorem orEmpty_some (v : JsString) : orEmpty (some v) = v := by
  cases v <;> rfl

theorem tracking_of_empty (s : State) (linkElement : Element) (url : JsString)
    (h : s.isEmpty) :
    tracking s linkElement url =
      { s with
        currentHoveredLink := some linkElement.ref
        currentHoveredUrl := some url
        currentHoveredTitle := some (getTitleFromElement linkElement)
        hoverTimeout := some ⟨s.nextHandle⟩
        nextHandle := s.nextHandle + 1
        timers := [⟨⟨s.nextHandle⟩, s.clock + HOVER_DELAY, url, linkElement⟩] } := by
  obtain ⟨_, _, _, h4, h5⟩ := h
  simp [tracking, timersAfterCancel, h4, h5]

theorem handleMouseOver_of_empty (s : State) (event : MouseEvent) (linkElement : Element)
    (url : JsString) (hempty : s.isEmpty) (hres : resolveOver event = some linkElement)
    (hurl : getUrlFromElement linkElement = some url) (hhttp : startsWith url "http" = true) :
    handleMouseOver s event =
      { s with
        currentHoveredLink := some linkElement.ref
        currentHoveredUrl := some url
        currentHoveredTitle := some (getTitleFromElement linkElement)
        hoverTimeout := some ⟨s.nextHandle⟩
        nextHandle := s.nextHandle + 1
        timers := [⟨⟨s.nextHandle⟩, s.clock + HOVER_DELAY, url, linkElement⟩] } := by
  rw [handleMouseOver_tracking s event linkElement url hres hurl hhttp (by simp [hempty.1]),
    tracking_of_empty s linkElement url hempty]

theorem delayed_hover_of_resolved (s : State) (event : MouseEvent) (linkElement : Element)
    (url : JsString) (ms : Nat) (hempty : s.isEmpty) (hchannel : s.channel = Channel.working)
    (hres : resolveOver event = some linkElement)
    (hurl : getUrlFromElement linkElement = some url) (hhttp : startsWith url "http" = true)
    (hms : HOVER_DELAY ≤ ms) :
    (handleMouseOver s event).sent = s.sent
    ∧ (handleMouseOver s event).timers =
        [⟨⟨s.nextHandle⟩, s.clock + HOVER_DELAY, url, linkElement⟩]
    ∧ (run s [.mouseover event, .elapse ms, .timeout ⟨s.nextHandle⟩]).sent =
        s.sent ++ [Message.hover url (getTitleFromElement linkElement)]
    ∧ (run s [.mouseover event, .elapse ms, .timeout ⟨s.nextHandle⟩]).timers = [] := by
  have he := handleMouseOver_of_empty s event linkElement url hempty hres hurl hhttp
  have hd : s.clock + HOVER_DELAY ≤ s.clock + ms := by omega
  refine ⟨by rw [he], by rw [he], ?_, ?_⟩ <;>
    simp [run, step, he, fireTimer, hd, sendHoverMessage, hchannel, clearTimeout, orEmpty_some]

theorem getUrlFromElement_of_href (e : Element) (h : truthy e.href = true) :
    getUrlFromElement e = e.href := by
  simp [getUrlFromElement, h]

theorem getTitleFromElement_of_title (e : Element) (v : JsString) (hv : e.title = some v)
    (h : truthy (some v) = true) : getTitleFromElement e = v.take 200 := by
  simp [getTitleFromElement, jsOr, hv, h, orEmpty_some, substring_zero]

theorem resolveOver_anchor (e : Element) (ancestors : List Element) (h : e.localName = "a") :
    resolveOver ⟨e, ancestors⟩ = some e := by
  simp [resolveOver, MouseEvent.closestAnchor, h]

/-! ## C1: hovering a link for the delay -/

/-- C1 as stated fails: a pointer-enter whose target has an `http` URL of its
own but lies inside an anchor resolves to the anchor; inside a `mailto:`
anchor nothing is scheduled and nothing sent, inside an `http` anchor the
message carries the anchor's URL and title, not the target's. And for the
anchor written with href `https://example.com` the url of the payload is the
`href` property, `https://example.com/`, not the attribute text. -/
theorem hover_target_inside_anchor_counterexample :
    getUrlFromElement linkSpan = some (js "http://x.test/")
    ∧ startsWith (js "http://x.test/") "http" = true
    ∧ getTitleFromElement linkSpan = js "x"
    ∧ (handleMouseOver (State.initial .working) ⟨linkSpan, [mailtoAnchor]⟩).timers = []
    ∧ (run (State.initial .working)
        [.mouseover ⟨linkSpan, [mailtoAnchor]⟩, .elapse 100, .timeout ⟨1⟩]).sent = []
    ∧ (run (State.initial .working)
        [.mouseover ⟨linkSpan, [exampleAnchor]⟩, .elapse 100, .timeout ⟨1⟩]).sent =
        [Message.hover (js "https://example.com/") (js "Example")]
    ∧ exampleAnchor.getAttribute "href" = some (js "https://example.com")
    ∧ (run (State.initial .working)
        [.mouseover ⟨exampleAnchor, []⟩, .elapse 100, .timeout ⟨1⟩]).sent ≠
        [⟨"CopyURLHover:Hover",
          [("url", js "https://example.com"), ("title", js "Example")]⟩] := by
  decide

/-- C1, amended: from the empty hover state with the channel available, for
every element E whose URL (`getUrlFromElement`) begins with `http` and every
pointer-enter whose target resolves to E (nearest enclosing anchor, else the
target itself), the enter sends nothing and schedules one timer due 100 ms
later, and that timer firing after at least 100 ms, with no other event in
between, sends exactly one `CopyURLHover:Hover` message, with E's URL and
title, leaving no timer pending; for the anchor written with href
`https://example.com` and title `Example`, whose `href` property is
`https://example.com/`, the payload is the url `https://example.com/` and the
title `Example`. -/
theorem hover_after_delay (s : State) (event : MouseEvent) (linkElement : Element)
    (url : JsString) (ms : Nat) (hempty : s.isEmpty) (hchannel : s.channel = Channel.working)
    (hres : resolveOver event = some linkElement)
    (hurl : getUrlFromElement linkElement = some url) (hhttp : startsWith url "http" = true)
    (hms : HOVER_DELAY ≤ ms) :
    ((handleMouseOver s event).sent = s.sent
      ∧ (handleMouseOver s event).timers =
          [⟨⟨s.nextHandle⟩, s.clock + HOVER_DELAY, url, linkElement⟩]
      ∧ (run s [.mouseover event, .elapse ms, .timeout ⟨s.nextHandle⟩]).sent =
          s.sent ++ [Message.hover url (getTitleFromElement linkElement)]
      ∧ (run s [.mouseover event, .elapse ms, .timeout ⟨s.nextHandle⟩]).timers = [])
    ∧ (∀ (e : Element) (ancestors : List Element),
        (run (State.initial .working)
          [.mouseover ⟨{ e with
              localName := "a"
              href := some (js "https://example.com/")
              attributes := [("href", js "https://example.com"), ("title", js "Example")]
              title := some (js "Example") }, ancestors⟩,
           .elapse ms, .timeout ⟨1⟩]).sent =
          [⟨"CopyURLHover:Hover",
            [("url", js "https://example.com/"), ("title", js "Example")]⟩]) := by
  refine ⟨delayed_hover_of_resolved s event linkElement url ms hempty hchannel hres hurl
    hhttp hms, ?_⟩
  intro e ancestors
  have h := (delayed_hover_of_resolved (State.initial .working)
    ⟨{ e with
        localName := "a"
        href := some (js "https://example.com/")
        attributes := [("href", js "https://example.com"), ("title", js "Example")]
        title := some (js "Example") }, ancestors⟩
    { e with
        localName := "a"
        href := some (js "https://example.com/")
        attributes := [("href", js "https://example.com"), ("title", js "Example")]
        title := some (js "Example") }
    (js "https://example.com/") ms (by simp [State.isEmpty, State.initial]) rfl
    (resolveOver_anchor _ _ rfl)
    (getUrlFromElement_of_href _
      (show truthy (some (js "https://example.com/")) = true by decide))
    (by decide) hms).2.2.1
  have ht : getTitleFromElement
      { e with
        localName := "a"
        href := some (js "https://example.com/")
        attributes := [("href", js "https://example.com"), ("title", js "Example")]
        title := some (js "Example") } = js "Example" := by
    rw [getTitleFromElement_of_title _ (js "Example") rfl (by decide)]
    decide
  rw [ht] at h
  simpa [State.initial, Message.hover] using h

/-- C1 at the anchor `<a href="https://example.com" title="Example">`, hovered
for 100 ms from the initial state. -/
theorem hover_after_delay_witness :
    (run (State.initial .working)
      [.mouseover ⟨exampleAnchor, []⟩, .elapse 100, .timeout ⟨1⟩]).sent =
      [Message.hover (js "https://example.com/") (js "Example")] :=
  (hover_after_delay (State.initial .working) ⟨exampleAnchor, []⟩ exampleAnchor
    (js "https://example.com/") 100 ⟨rfl, rfl, rfl, rfl, rfl⟩ rfl (by decide) (by decide)
    (by decide) (by decide)).1.2.2.1

/-! ## C2: entering and leaving within the delay -/

theorem handleMouseOver_ignored (s : State) (event : MouseEvent)
    (h : ∀ linkElement, resolveOver event = some linkElement → hasHttpUrl linkElement = false) :
    handleMouseOver s event = s := by
  rcases handleMouseOver_eq s event with he | ⟨l, u, hr, hu, hh, _, _⟩
  · exact he
  · have := h l hr
    simp [hasHttpUrl, hu, hh] at this

theorem resolveOver_eq_resolveOut (event : MouseEvent)
    (h : truthy (getUrlFromElement event.target) = true) :
    resolveOver event = some (resolveOut event) := by
  unfold resolveOver resolveOut
  cases event.closestAnchor <;> simp [h]

theorem run_timer_events (later : List Event) (s : State) (hs : s.timers = [])
    (hlater : ∀ e ∈ later, e.isTimerEvent = true) :
    (run s later).sent = s.sent ∧ (run s later).timers = [] := by
  induction later generalizing s with
  | nil => exact ⟨rfl, hs⟩
  | cons e rest ih =>
    have he := hlater e (by simp)
    have hrest : ∀ e ∈ rest, e.isTimerEvent = true := fun x hx => hlater x (by simp [hx])
    cases e with
    | mouseover event => simp [Event.isTimerEvent] at he
    | mouseout event => simp [Event.isTimerEvent] at he
    | elapse ms =>
      have := ih { s with clock := s.clock + ms } hs hrest
      simpa [run, step] using this
    | timeout handle =>
      have hf : fireTimer s handle = s := by simp [fireTimer, hs]
      have := ih s hs hrest
      simpa [run, step, hf] using this

/-- C2 as stated fails: entering the example anchor and leaving it at once
sends a `CopyURLHover:Clear` message, so a message is sent on the channel. -/
theorem enter_then_leave_counterexample :
    getUrlFromElement exampleAnchor = some (js "https://example.com/")
    ∧ startsWith (js "https://example.com/") "http" = true
    ∧ (run (State.initial .working)
        [.mouseover ⟨exampleAnchor, []⟩, .mouseout ⟨exampleAnchor, []⟩]).sent =
        [⟨"CopyURLHover:Clear", []⟩] := by
  decide

/-- C2, amended: from the empty hover state, for every element E whose URL
begins with `http`, a pointer-enter on E followed, before the timer has fired,
by a pointer-leave on E leaves the hover state empty with no timer pending and
sends no Hover message, then or later; the only message is the one
`CopyURLHover:Clear` message of the leave, sent when the channel is available
and the enter tracked the resolved link (its URL begins with `http`). -/
theorem enter_then_leave (s : State) (event : MouseEvent) (url : JsString) (ms : Nat)
    (later : List Event) (hempty : s.isEmpty)
    (hurl : getUrlFromElement event.target = some url) (hhttp : startsWith url "http" = true)
    (hlater : ∀ e ∈ later, e.isTimerEvent = true) :
    (run s [.mouseover event, .elapse ms, .mouseout event]).isEmpty
    ∧ (run s [.mouseover event, .elapse ms, .mouseout event]).sent =
        (if s.channel = Channel.working ∧ hasHttpUrl (resolveOut event) = true
          then s.sent ++ [Message.clear] else s.sent)
    ∧ (run (run s [.mouseover event, .elapse ms, .mouseout event]) later).sent =
        (run s [.mouseover event, .elapse ms, .mouseout event]).sent := by
  have hres := resolveOver_eq_resolveOut event
    (by rw [hurl]; exact startsWith_http_ne_nil url hhttp)
  have key : (run s [.mouseover event, .elapse ms, .mouseout event]).isEmpty
      ∧ (run s [.mouseover event, .elapse ms, .mouseout event]).sent =
        (if s.channel = Channel.working ∧ hasHttpUrl (resolveOut event) = true
          then s.sent ++ [Message.clear] else s.sent) := by
    obtain ⟨h1, h2, h3, h4, h5⟩ := hempty
    cases hh : hasHttpUrl (resolveOut event) with
    | false =>
      have he := handleMouseOver_ignored s event (by
        intro l hl
        rw [hres] at hl
        cases hl
        exact hh)
      have hne : ¬ some (resolveOut event).ref = s.currentHoveredLink := by simp [h1]
      simp [run, step, he, handleMouseOut_eq, h1, State.isEmpty, h2, h3, h4, h5]
    | true =>
      cases hu : getUrlFromElement (resolveOut event) with
      | none => simp [hasHttpUrl, hu] at hh
      | some u =>
        have hhu : startsWith u "http" = true := by simpa [hasHttpUrl, hu] using hh
        have he := handleMouseOver_of_empty s event (resolveOut event) u
          ⟨h1, h2, h3, h4, h5⟩ hres hu hhu
        obtain ⟨f1, f2, f3, f4, _, _, f7, _, f9⟩ := sendClearMessage_fields
          { currentHoveredLink := none, currentHoveredUrl := none, currentHoveredTitle := none,
            hoverTimeout := none, clock := s.clock + ms, nextHandle := s.nextHandle + 1,
            timers := [], channel := s.channel, sent := s.sent, console := s.console }
        simp only [run, List.foldl, step, he, handleMouseOut_eq, if_true, timersAfterCancel,
          State.isEmpty]
        simp only [bne_self_eq_false, Bool.false_eq_true, decide_False, List.filter_cons_of_neg,
          List.filter_nil, not_false_eq_true, and_true]
        refine ⟨⟨f1, f2, f3, f4, f7⟩, ?_⟩
        rw [f9]
  refine ⟨key.1, key.2, ?_⟩
  exact (run_timer_events later _ key.1.2.2.2.2 hlater).1

/-- C2 at the example anchor, left 40 ms after it was entered, with the clock
then running on and the browser trying the cancelled timer. -/
theorem enter_then_leave_witness :
    (run (State.initial .working)
      [.mouseover ⟨exampleAnchor, []⟩, .elapse 40, .mouseout ⟨exampleAnchor, []⟩,
       .elapse 100, .timeout ⟨1⟩]).sent = [Message.clear] := by
  have h := enter_then_leave (State.initial .working) ⟨exampleAnchor, []⟩
    (js "https://example.com/") 40 [.elapse 100, .timeout ⟨1⟩] ⟨rfl, rfl, rfl, rfl, rfl⟩
    (by decide) (by decide) (by decide)
  have h2 := h.2.1
  have h3 := h.2.2
  rw [h2] at h3
  simpa [run] using h3

/-! ## C3 and C4: leaving -/

/-- C3 as stated fails: with the example anchor tracked and `sendAsyncMessage`
not available, leaving the anchor resets the state and sends no message. -/
theorem leave_tracked_counterexample :
    (handleMouseOver (State.initial .absent) ⟨exampleAnchor, []⟩).currentHoveredLink =
      some (resolveOut ⟨exampleAnchor, []⟩).ref
    ∧ (handleMouseOut (handleMouseOver (State.initial .absent) ⟨exampleAnchor, []⟩)
        ⟨exampleAnchor, []⟩).sent = []
    ∧ (handleMouseOut (handleMouseOver (State.initial .absent) ⟨exampleAnchor, []⟩)
        ⟨exampleAnchor, []⟩).console =
        ["QuickTabs content script: sendAsyncMessage not available"] := by
  decide

/-- C3, amended: for every state in which some element L is tracked and every
pointer-leave whose target resolves to L, `handleMouseOut` cancels the timer
of the stored handle if there is one, resets the hover state to empty (tracked
element, URL, title and stored handle all null; no timer pending in a
reachable state), and, when the send channel is available, sends exactly one
`CopyURLHover:Clear` message with the empty payload and logs nothing; when
the channel is absent or throws, no message is sent and one diagnostic line is
written to the console, and nothing else of the state changes. -/
theorem leave_tracked (s : State) (event : MouseEvent)
    (h : s.currentHoveredLink = some (resolveOut event).ref) :
    (handleMouseOut s event).currentHoveredLink = none
    ∧ (handleMouseOut s event).currentHoveredUrl = none
    ∧ (handleMouseOut s event).currentHoveredTitle = none
    ∧ (handleMouseOut s event).hoverTimeout = none
    ∧ (∀ handle, s.hoverTimeout = some handle →
        (handleMouseOut s event).timers = s.timers.filter (fun t => t.handle != handle))
    ∧ (s.hoverTimeout = none → (handleMouseOut s event).timers = s.timers)
    ∧ (Reachable s → (handleMouseOut s event).timers = [])
    ∧ (handleMouseOut s event).sent =
        (if s.channel = Channel.working then s.sent ++ [⟨"CopyURLHover:Clear", []⟩]
          else s.sent)
    ∧ (handleMouseOut s event).console =
        (match s.channel with
          | .working => s.console
          | .absent =>
            s.console ++ ["QuickTabs content script: sendAsyncMessage not available"]
          | .failing =>
            s.console ++ ["QuickTabs content script: Error sending clear message:"])
    ∧ (handleMouseOut s event).clock = s.clock
    ∧ (handleMouseOut s event).nextHandle = s.nextHandle
    ∧ (handleMouseOut s event).channel = s.channel := by
  obtain ⟨f1, f2, f3, f4, f5, f6, f7, f8, f9⟩ := sendClearMessage_fields
    { s with currentHoveredLink := none, currentHoveredUrl := none,
             currentHoveredTitle := none, hoverTimeout := none,
             timers := timersAfterCancel s }
  have f10 := sendClearMessage_console
    { s with currentHoveredLink := none, currentHoveredUrl := none,
             currentHoveredTitle := none, hoverTimeout := none,
             timers := timersAfterCancel s }
  rw [handleMouseOut_eq, if_pos h.symm]
  refine ⟨f1, f2, f3, f4, ?_, ?_, ?_, ?_, f10, f5, f6, f8⟩
  · intro handle hh
    rw [f7]
    simp [timersAfterCancel, hh]
  · intro hh
    rw [f7]
    simp [timersAfterCancel, hh]
  · intro hr
    rw [f7]
    exact timersAfterCancel_eq_nil s (inv_of_reachable s hr)
  · rw [f9]
    rfl

/-- C3 at the example anchor, entered from the initial state and left. -/
theorem leave_tracked_witness :
    (handleMouseOut (handleMouseOver (State.initial .working) ⟨exampleAnchor, []⟩)
        ⟨exampleAnchor, []⟩).timers = []
    ∧ (handleMouseOut (handleMouseOver (State.initial .working) ⟨exampleAnchor, []⟩)
        ⟨exampleAnchor, []⟩).sent = [⟨"CopyURLHover:Clear", []⟩]
    ∧ (handleMouseOut (handleMouseOver (State.initial .working) ⟨exampleAnchor, []⟩)
        ⟨exampleAnchor, []⟩).console = [] :=
  have h := leave_tracked (handleMouseOver (State.initial .working) ⟨exampleAnchor, []⟩)
    ⟨exampleAnchor, []⟩ (by decide)
  ⟨h.2.2.2.2.2.2.1 ⟨.working, [.mouseover ⟨exampleAnchor, []⟩], rfl⟩, h.2.2.2.2.2.2.2.1,
   h.2.2.2.2.2.2.2.2.1⟩

/-- C4: for every state, the empty one included, and every pointer-leave
whose target resolves (nearest enclosing anchor, else the target itself) to an
element other than the tracked one, `handleMouseOut` sends nothing and leaves
the tracked element, URL, title, the stored handle and the pending timers as
they were: the state is unchanged. -/
theorem leave_other_element (s : State) (event : MouseEvent)
    (h : some (resolveOut event).ref ≠ s.currentHoveredLink) :
    handleMouseOut s event = s := by
  rw [handleMouseOut_eq, if_neg h]

/-- C4 with the example anchor tracked and another anchor left. -/
theorem leave_other_element_witness :
    handleMouseOut (handleMouseOver (State.initial .working) ⟨exampleAnchor, []⟩)
        ⟨otherAnchor, []⟩ =
      handleMouseOver (State.initial .working) ⟨exampleAnchor, []⟩ :=
  leave_other_element _ _ (by decide)

/-! ## C5: a repeated pointer-enter -/

theorem handleMouseOver_duplicate (s : State) (event : MouseEvent) (linkElement : Element)
    (url : JsString) (hres : resolveOver event = some linkElement)
    (hurl : getUrlFromElement linkElement = some url)
    (hlink : s.currentHoveredLink = some linkElement.ref)
    (hcur : s.currentHoveredUrl = some url) :
    handleMouseOver s event = s := by
  simp [handleMouseOver, hres, hurl, hlink, hcur]

theorem handleMouseOver_again (s : State) (event : MouseEvent) (ms : Nat) :
    handleMouseOver { handleMouseOver s event with
        clock := (handleMouseOver s event).clock + ms } event =
      { handleMouseOver s event with clock := (handleMouseOver s event).clock + ms } := by
  rcases handleMouseOver_eq s event with he | ⟨l, u, hr, hu, hh, _, he⟩
  · rcases handleMouseOver_eq { handleMouseOver s event with
        clock := (handleMouseOver s event).clock + ms } event with h2 | ⟨l, u, hr, hu, hh, hn, _⟩
    · exact h2
    · have := handleMouseOver_tracking s event l u hr hu hh (by simpa [he] using hn)
      rw [he] at this
      have hl := congrArg State.currentHoveredLink this
      have hu := congrArg State.currentHoveredUrl this
      simp only [tracking] at hl hu
      exact absurd ⟨by simpa [he] using hl, by simpa [he] using hu⟩ hn
  · exact handleMouseOver_duplicate _ event l u hr hu (by simp [he, tracking])
      (by simp [he, tracking])

/-- C5: `handleMouseOver` is idempotent on a repeated target: for every state
and event, handling the event a second time, at once or after some time has
passed (no leave and no timer firing in between), gives the state the first
handling gave, with the same pending timers and deadlines (at most one timer
in a reachable state), hence the same messages after any further events; and when the resolved element and URL are
the tracked ones the handler changes nothing and schedules no timer. -/
theorem handleMouseOver_idempotent (s : State) (event : MouseEvent) :
    handleMouseOver (handleMouseOver s event) event = handleMouseOver s event
    ∧ (∀ ms, run s [.mouseover event, .elapse ms, .mouseover event] =
        run s [.mouseover event, .elapse ms])
    ∧ (∀ ms later, (run s (.mouseover event :: .elapse ms :: .mouseover event :: later)).sent =
        (run s (.mouseover event :: .elapse ms :: later)).sent)
    ∧ (Reachable s → (handleMouseOver (handleMouseOver s event) event).timers.length ≤ 1)
    ∧ (∀ linkElement url, resolveOver event = some linkElement →
        getUrlFromElement linkElement = some url →
        s.currentHoveredLink = some linkElement.ref → s.currentHoveredUrl = some url →
        handleMouseOver s event = s) := by
  refine ⟨?_, ?_, ?_, ?_, ?_⟩
  · have := handleMouseOver_again s event 0
    simpa using this
  · intro ms
    simpa [run, step] using handleMouseOver_again s event ms
  · intro ms later
    have := handleMouseOver_again s event ms
    simp only [run, List.foldl, step] at this ⊢
    rw [this]
  · intro hr
    exact (inv_handleMouseOver _ event
      (inv_handleMouseOver s event (inv_of_reachable s hr))).1
  · intro l u hr hu hl hc
    exact handleMouseOver_duplicate s event l u hr hu hl hc

/-- C5 at the example anchor already tracked: the second pointer-enter changes
nothing. -/
theorem handleMouseOver_idempotent_witness :
    handleMouseOver (handleMouseOver (State.initial .working) ⟨exampleAnchor, []⟩)
        ⟨exampleAnchor, []⟩ =
      handleMouseOver (State.initial .working) ⟨exampleAnchor, []⟩ :=
  (handleMouseOver_idempotent (handleMouseOver (State.initial .working) ⟨exampleAnchor, []⟩)
    ⟨exampleAnchor, []⟩).2.2.2.2 exampleAnchor (js "https://example.com/")
    (by decide) (by decide) (by decide) (by decide)

/-! ## C6: links that are not `http` -/

theorem step_not_tracked (s : State) (e : Event) (ref : Nat)
    (hs : s.currentHoveredLink ≠ some ref)
    (he : ∀ event linkElement, e = .mouseover event → resolveOver event = some linkElement →
      linkElement.ref = ref → hasHttpUrl linkElement = false) :
    (step s e).currentHoveredLink ≠ some ref := by
  cases e with
  | mouseover event =>
    rcases handleMouseOver_eq s event with h | ⟨l, u, hr, hu, hh, _, h⟩
    · simpa [step, h] using hs
    · have hl : l.ref ≠ ref := by
        intro hl
        have := he event l rfl hr hl
        simp [hasHttpUrl, hu, hh] at this
      simpa [step, h, tracking] using hl
  | mouseout event =>
    simp only [step, handleMouseOut_eq]
    split
    · rw [(sendClearMessage_fields _).1]
      simp
    · exact hs
  | elapse ms => exact hs
  | timeout handle =>
    rcases fireTimer_eq s handle with h | ⟨t, _, _, _, h⟩
    · simpa [step, h] using hs
    · simp only [step, h]
      rw [(sendHoverMessage_fields _ _ _).1]
      exact hs

theorem run_not_tracked (events : List Event) (s : State) (ref : Nat)
    (hs : s.currentHoveredLink ≠ some ref)
    (he : ∀ e ∈ events, ∀ event linkElement, e = .mouseover event →
      resolveOver event = some linkElement → linkElement.ref = ref →
      hasHttpUrl linkElement = false) :
    (run s events).currentHoveredLink ≠ some ref := by
  induction events generalizing s with
  | nil => exact hs
  | cons e rest ih =>
    exact ih (step s e) (step_not_tracked s e ref hs (he e (by simp)))
      (fun x hx => he x (by simp [hx]))

/-- C6: for every state and every pointer-enter whose resolved link-like
element has no URL or a URL that does not begin with `http` (also when no
link-like element resolves), `handleMouseOver` leaves the whole state, the
hover state and the timers with it, unchanged; every Hover message sent in a
reachable state carries a url that begins with `http`; and an element whose
URL is not an `http` one at any pointer-enter that resolves to it is never
tracked, so that leaving it sends nothing either. -/
theorem non_http_ignored (s : State) (event : MouseEvent)
    (h : ∀ linkElement, resolveOver event = some linkElement → hasHttpUrl linkElement = false) :
    handleMouseOver s event = s
    ∧ (∀ r, Reachable r → ∀ m ∈ r.sent, m.name = "CopyURLHover:Hover" →
        ∃ url title, m.payload = [("url", url), ("title", title)]
          ∧ startsWith url "http" = true)
    ∧ (∀ channel events ref,
        (∀ e ∈ events, ∀ ev linkElement, e = .mouseover ev →
          resolveOver ev = some linkElement → linkElement.ref = ref →
          hasHttpUrl linkElement = false) →
        (run (State.initial channel) events).currentHoveredLink ≠ some ref
        ∧ (∀ t ∈ (run (State.initial channel) events).timers, t.linkElement.ref ≠ ref)
        ∧ (∀ ev, (resolveOut ev).ref = ref →
            handleMouseOut (run (State.initial channel) events) ev =
              run (State.initial channel) events)) := by
  refine ⟨handleMouseOver_ignored s event h, ?_, ?_⟩
  · intro r hr m hm hname
    rcases (inv_of_reachable r hr).2.2.2 m hm with hc | ⟨url, title, hm, hh⟩
    · subst hc
      exact absurd hname (by decide)
    · exact ⟨url, title, by rw [hm]; rfl, hh⟩
  · intro channel events ref hev
    have hnt := run_not_tracked events (State.initial channel) ref (by simp [State.initial]) hev
    refine ⟨hnt, ?_, ?_⟩
    · intro t ht heq
      have := ((inv_of_reachable _ ⟨channel, events, rfl⟩).2.1 t ht).2.1
      rw [heq] at this
      exact hnt this
    · intro ev hev2
      rw [handleMouseOut_eq, if_neg]
      rw [hev2]
      exact fun hc => hnt hc.symm

theorem resolveOver_mailtoAnchor (linkElement : Element)
    (h : resolveOver ⟨mailtoAnchor, []⟩ = some linkElement) : hasHttpUrl linkElement = false := by
  have h2 : resolveOver ⟨mailtoAnchor, []⟩ = some mailtoAnchor := by decide
  rw [h2] at h
  rw [← Option.some.inj h]
  decide

/-- C6 at the `mailto:` anchor: entered while the example anchor is tracked it
changes nothing, and entered and left from the initial state it is not
tracked and sends nothing. -/
theorem non_http_ignored_witness :
    handleMouseOver (handleMouseOver (State.initial .working) ⟨exampleAnchor, []⟩)
        ⟨mailtoAnchor, []⟩ =
      handleMouseOver (State.initial .working) ⟨exampleAnchor, []⟩
    ∧ handleMouseOut (run (State.initial .working) [.mouseover ⟨mailtoAnchor, []⟩])
        ⟨mailtoAnchor, []⟩ = run (State.initial .working) [.mouseover ⟨mailtoAnchor, []⟩] :=
  have h := non_http_ignored (handleMouseOver (State.initial .working) ⟨exampleAnchor, []⟩)
    ⟨mailtoAnchor, []⟩ resolveOver_mailtoAnchor
  ⟨h.1,
   (h.2.2 .working [.mouseover ⟨mailtoAnchor, []⟩] 2 (by
      intro e he ev linkElement hev hres _
      simp only [List.mem_singleton] at he
      rw [he] at hev
      cases hev
      exact resolveOver_mailtoAnchor linkElement hres)).2.2 ⟨mailtoAnchor, []⟩ (by decide)⟩

/-! ## C7 and C10: the debounce timer -/

theorem timersAfterCancel_subset (s : State) : ∀ t ∈ timersAfterCancel s, t ∈ s.timers := by
  intro t ht
  unfold timersAfterCancel at ht
  cases hto : s.hoverTimeout with
  | none => simpa [hto] using ht
  | some handle =>
    rw [hto] at ht
    exact (List.mem_filter.1 ht).1

theorem step_not_pending (s : State) (e : Event) (handle : TimerHandle)
    (hlt : handle.index < s.nextHandle) (hnp : ∀ t ∈ s.timers, t.handle ≠ handle) :
    handle.index < (step s e).nextHandle ∧ ∀ t ∈ (step s e).timers, t.handle ≠ handle := by
  cases e with
  | mouseover event =>
    rcases handleMouseOver_eq s event with h | ⟨l, u, _, _, _, _, h⟩
    · simp only [step, h]
      exact ⟨hlt, hnp⟩
    · simp only [step, h, tracking]
      refine ⟨by omega, ?_⟩
      intro t ht
      rcases List.mem_append.1 ht with ht | ht
      · exact hnp t (timersAfterCancel_subset s t ht)
      · have : t.handle = ⟨s.nextHandle⟩ := by
          simp only [List.mem_singleton] at ht
          rw [ht]
        intro hc
        rw [this] at hc
        rw [← hc] at hlt
        simp at hlt
  | mouseout event =>
    simp only [step, handleMouseOut_eq]
    split
    · obtain ⟨_, _, _, _, _, f6, f7, _, _⟩ := sendClearMessage_fields
        { s with currentHoveredLink := none, currentHoveredUrl := none,
                 currentHoveredTitle := none, hoverTimeout := none,
                 timers := timersAfterCancel s }
      rw [f6, f7]
      exact ⟨hlt, fun t ht => hnp t (timersAfterCancel_subset s t ht)⟩
    · exact ⟨hlt, hnp⟩
  | elapse ms => exact ⟨hlt, hnp⟩
  | timeout fired =>
    rcases fireTimer_eq s fired with h | ⟨timer, _, _, _, h⟩
    · simp only [step, h]
      exact ⟨hlt, hnp⟩
    · simp only [step, h]
      obtain ⟨_, _, _, _, _, f6, f7, _, _⟩ :=
        sendHoverMessage_fields (clearTimeout s fired) timer.url s.currentHoveredTitle
      rw [f6, f7]
      exact ⟨hlt, fun t ht => hnp t (List.mem_filter.1 ht).1⟩

theorem run_not_pending (events : List Event) (s : State) (handle : TimerHandle)
    (hlt : handle.index < s.nextHandle) (hnp : ∀ t ∈ s.timers, t.handle ≠ handle) :
    ∀ t ∈ (run s events).timers, t.handle ≠ handle := by
  induction events generalizing s with
  | nil => exact hnp
  | cons e rest ih =>
    have := step_not_pending s e handle hlt hnp
    exact ih (step s e) this.1 this.2

theorem fireTimer_not_pending (s : State) (handle : TimerHandle)
    (hnp : ∀ t ∈ s.timers, t.handle ≠ handle) : fireTimer s handle = s := by
  rcases fireTimer_eq s handle with h | ⟨timer, hmem, hh, _, _⟩
  · exact h
  · exact absurd hh (hnp timer hmem)

theorem never_fires (s : State) (handle : TimerHandle) (later : List Event)
    (hlt : handle.index < s.nextHandle) (hnp : ∀ t ∈ s.timers, t.handle ≠ handle) :
    fireTimer (run s later) handle = run s later :=
  fireTimer_not_pending _ handle (run_not_pending later s handle hlt hnp)

theorem fireTimer_pending (s : State) (timer : Timer) (h : Inv s) (hmem : timer ∈ s.timers) :
    fireTimer s timer.handle =
      if timer.deadline ≤ s.clock then
        sendHoverMessage (clearTimeout s timer.handle) timer.url s.currentHoveredTitle
      else s := by
  have hts : s.timers = [timer] := by
    have hlen := h.1
    cases hl : s.timers with
    | nil => simp [hl] at hmem
    | cons a rest =>
      cases rest with
      | nil =>
        rw [hl] at hmem
        simp only [List.mem_singleton] at hmem
        rw [hmem]
      | cons b rest2 => simp [hl] at hlen
  simp [fireTimer, hts]

theorem step_keeps_hover_or_cancels (s : State) (timer : Timer) (e : Event) (h : Inv s)
    (hmem : timer ∈ s.timers) :
    ((step s e).currentHoveredLink = s.currentHoveredLink
      ∧ (step s e).currentHoveredUrl = s.currentHoveredUrl
      ∧ (step s e).currentHoveredTitle = s.currentHoveredTitle)
    ∨ (timer.handle.index < (step s e).nextHandle
      ∧ ∀ t ∈ (step s e).timers, t.handle ≠ timer.handle) := by
  have hlt := h.2.2.1 timer hmem
  have hnil := timersAfterCancel_eq_nil s h
  cases e with
  | mouseover event =>
    rcases handleMouseOver_eq s event with he | ⟨l, u, _, _, _, _, he⟩
    · left
      simp [step, he]
    · right
      simp only [step, he, tracking, hnil, List.nil_append, List.mem_singleton]
      refine ⟨by omega, ?_⟩
      intro t ht hc
      rw [ht] at hc
      rw [← hc] at hlt
      simp at hlt
  | mouseout event =>
    simp only [step, handleMouseOut_eq]
    split
    · right
      obtain ⟨_, _, _, _, _, f6, f7, _, _⟩ := sendClearMessage_fields
        { s with currentHoveredLink := none, currentHoveredUrl := none,
                 currentHoveredTitle := none, hoverTimeout := none,
                 timers := timersAfterCancel s }
      rw [f6, f7]
      simp only [hnil]
      exact ⟨hlt, by simp⟩
    · exact Or.inl ⟨rfl, rfl, rfl⟩
  | elapse ms => exact Or.inl ⟨rfl, rfl, rfl⟩
  | timeout fired =>
    left
    rcases fireTimer_eq s fired with he | ⟨t, _, _, _, he⟩
    · simp [step, he]
    · simp only [step, he]
      obtain ⟨f1, f2, f3, _⟩ :=
        sendHoverMessage_fields (clearTimeout s fired) t.url s.currentHoveredTitle
      exact ⟨f1, f2, f3⟩

theorem leave_cancels_timer (s : State) (timer : Timer) (event : MouseEvent) (h : Inv s)
    (hmem : timer ∈ s.timers) (hleave : (resolveOut event).ref = timer.linkElement.ref) :
    (handleMouseOut s event).timers = []
    ∧ timer.handle.index < (handleMouseOut s event).nextHandle
    ∧ (handleMouseOut s event).sent =
        (if s.channel = Channel.working then s.sent ++ [Message.clear] else s.sent) := by
  have htracked := (h.2.1 timer hmem).2.1
  obtain ⟨_, _, _, _, _, f6, f7, _, f9⟩ := sendClearMessage_fields
    { s with currentHoveredLink := none, currentHoveredUrl := none,
             currentHoveredTitle := none, hoverTimeout := none,
             timers := timersAfterCancel s }
  rw [handleMouseOut_eq, if_pos (by rw [htracked, hleave]), f6, f7, f9]
  exact ⟨timersAfterCancel_eq_nil s h, h.2.2.1 timer hmem, rfl⟩

theorem supersede_cancels_timer (s : State) (timer : Timer) (event : MouseEvent)
    (linkElement : Element) (url : JsString) (h : Inv s) (hmem : timer ∈ s.timers)
    (hres : resolveOver event = some linkElement)
    (hurl : getUrlFromElement linkElement = some url) (hhttp : startsWith url "http" = true)
    (hother : ¬ (linkElement.ref = timer.linkElement.ref ∧ url = timer.url)) :
    (handleMouseOver s event).timers =
        [⟨⟨s.nextHandle⟩, s.clock + HOVER_DELAY, url, linkElement⟩]
    ∧ timer.handle.index < (handleMouseOver s event).nextHandle
    ∧ ∀ t ∈ (handleMouseOver s event).timers, t.handle ≠ timer.handle := by
  obtain ⟨_, h2, h3, _⟩ := h.2.1 timer hmem
  have hlt := h.2.2.1 timer hmem
  have hnew : ¬ (s.currentHoveredLink = some linkElement.ref
      ∧ s.currentHoveredUrl = some url) := by
    rw [h2, h3]
    intro hc
    exact hother ⟨(Option.some.inj hc.1).symm, (Option.some.inj hc.2).symm⟩
  rw [handleMouseOver_tracking s event linkElement url hres hurl hhttp hnew]
  have hnil := timersAfterCancel_eq_nil s h
  refine ⟨by simp [tracking, hnil], by simp only [tracking]; omega, ?_⟩
  intro t ht hc
  simp only [tracking, hnil, List.nil_append, List.mem_singleton] at ht
  rw [ht] at hc
  rw [← hc] at hlt
  simp at hlt

/-- C7: no stale hover notification. In every reachable state, a pending
debounce timer belongs to the current hover: the tracked element, URL and
title are set and are the element the scheduling pointer-enter resolved and
the URL and title it extracted from it; when the timer fires (it is due and
the browser runs it) the Hover message sent carries exactly that tracked URL
and title; after any event either the hover state is as it was or the timer
is cancelled for good; a handle with no pending timer fires nothing. A
pointer-leave that resolves to the timer's element cancels the timer: no timer
is pending, the timer never fires after any later events, and whatever timers
the browser tries afterwards the messages are those sent before and the Clear
message of the leave. A pointer-enter that resolves to a different element
(or to the same element with another URL) with an `http` URL cancels it as
well: the only pending timer is the new one and the old one never fires. -/
theorem no_stale_hover (s : State) (timer : Timer) (hs : Reachable s)
    (hpending : timer ∈ s.timers) :
    s.currentHoveredLink = some timer.linkElement.ref
    ∧ s.currentHoveredUrl = some timer.url
    ∧ s.currentHoveredTitle = some (getTitleFromElement timer.linkElement)
    ∧ getUrlFromElement timer.linkElement = some timer.url
    ∧ (fireTimer s timer.handle).sent =
        (if timer.deadline ≤ s.clock ∧ s.channel = Channel.working
          then s.sent ++ [Message.hover timer.url (getTitleFromElement timer.linkElement)]
          else s.sent)
    ∧ (∀ e : Event,
        ((step s e).currentHoveredLink = s.currentHoveredLink
          ∧ (step s e).currentHoveredUrl = s.currentHoveredUrl
          ∧ (step s e).currentHoveredTitle = s.currentHoveredTitle)
        ∨ (∀ later, fireTimer (run (step s e) later) timer.handle = run (step s e) later))
    ∧ (∀ handle, (∀ t ∈ s.timers, t.handle ≠ handle) → fireTimer s handle = s)
    ∧ (∀ event : MouseEvent, (resolveOut event).ref = timer.linkElement.ref →
        (handleMouseOut s event).timers = []
        ∧ (∀ later, fireTimer (run (handleMouseOut s event) later) timer.handle =
            run (handleMouseOut s event) later)
        ∧ (∀ later, (∀ e ∈ later, e.isTimerEvent = true) →
            (run (handleMouseOut s event) later).sent =
              (if s.channel = Channel.working then s.sent ++ [Message.clear] else s.sent)))
    ∧ (∀ (event : MouseEvent) (linkElement : Element) (url : JsString),
        resolveOver event = some linkElement → getUrlFromElement linkElement = some url →
        startsWith url "http" = true →
        ¬ (linkElement.ref = timer.linkElement.ref ∧ url = timer.url) →
        (handleMouseOver s event).timers =
            [⟨⟨s.nextHandle⟩, s.clock + HOVER_DELAY, url, linkElement⟩]
        ∧ (∀ later, fireTimer (run (handleMouseOver s event) later) timer.handle =
            run (handleMouseOver s event) later)) := by
  have hinv := inv_of_reachable s hs
  obtain ⟨_, h2, h3, h4, h5, _⟩ := hinv.2.1 timer hpending
  refine ⟨h2, h3, h4, h5, ?_, ?_, fun handle hnp => fireTimer_not_pending s handle hnp,
    ?_, ?_⟩
  · rw [fireTimer_pending s timer hinv hpending]
    by_cases hd : timer.deadline ≤ s.clock
    · rw [if_pos hd, (sendHoverMessage_fields _ _ _).2.2.2.2.2.2.2.2, h4, orEmpty_some]
      simp [hd, clearTimeout]
    · simp [hd]
  · intro e
    rcases step_keeps_hover_or_cancels s timer e hinv hpending with hk | ⟨hlt, hnp⟩
    · exact Or.inl hk
    · exact Or.inr (fun later => never_fires (step s e) timer.handle later hlt hnp)
  · intro event hleave
    obtain ⟨hnil, hlt, hsent⟩ := leave_cancels_timer s timer event hinv hpending hleave
    refine ⟨hnil, ?_, ?_⟩
    · intro later
      exact never_fires _ timer.handle later hlt (by rw [hnil]; simp)
    · intro later hlater
      rw [(run_timer_events later _ hnil hlater).1, hsent]
  · intro event linkElement url hres hurl hhttp hother
    obtain ⟨hts, hlt, hnp⟩ :=
      supersede_cancels_timer s timer event linkElement url hinv hpending hres hurl hhttp hother
    exact ⟨hts, fun later => never_fires _ timer.handle later hlt hnp⟩

/-- C7 at the example anchor: its timer, fired when due, sends the tracked URL
and title; when the anchor is left after 40 ms, or another anchor is entered
after 40 ms, the browser trying the timer at 100 ms sends no Hover message for
it. -/
theorem no_stale_hover_witness :
    (fireTimer (run (State.initial .working) [.mouseover ⟨exampleAnchor, []⟩, .elapse 100])
        ⟨1⟩).sent = [Message.hover (js "https://example.com/") (js "Example")]
    ∧ (run (State.initial .working)
        [.mouseover ⟨exampleAnchor, []⟩, .elapse 40, .mouseout ⟨exampleAnchor, []⟩,
         .elapse 60, .timeout ⟨1⟩]).sent = [Message.clear]
    ∧ (run (State.initial .working)
        [.mouseover ⟨exampleAnchor, []⟩, .elapse 40, .mouseover ⟨otherAnchor, []⟩,
         .elapse 60, .timeout ⟨1⟩]).sent = [] :=
  ⟨(no_stale_hover (run (State.initial .working) [.mouseover ⟨exampleAnchor, []⟩, .elapse 100])
      ⟨⟨1⟩, 100, js "https://example.com/", exampleAnchor⟩
      ⟨.working, [.mouseover ⟨exampleAnchor, []⟩, .elapse 100], rfl⟩ (by decide)).2.2.2.2.1,
   (((no_stale_hover (run (State.initial .working) [.mouseover ⟨exampleAnchor, []⟩, .elapse 40])
      ⟨⟨1⟩, 100, js "https://example.com/", exampleAnchor⟩
      ⟨.working, [.mouseover ⟨exampleAnchor, []⟩, .elapse 40], rfl⟩
      (by decide)).2.2.2.2.2.2.2.1 ⟨exampleAnchor, []⟩ (by decide)).2.2
      [.elapse 60, .timeout ⟨1⟩] (by decide)).trans (by decide),
   (congrArg State.sent
     (((no_stale_hover
        (run (State.initial .working) [.mouseover ⟨exampleAnchor, []⟩, .elapse 40])
        ⟨⟨1⟩, 100, js "https://example.com/", exampleAnchor⟩
        ⟨.working, [.mouseover ⟨exampleAnchor, []⟩, .elapse 40], rfl⟩
        (by decide)).2.2.2.2.2.2.2.2 ⟨otherAnchor, []⟩ otherAnchor (js "https://other.test/")
        (by decide) (by decide) (by decide) (by decide)).2 [.elapse 60])).trans (by decide)⟩

/-- C10: in every reachable state at most one debounce timer is pending, and
`handleMouseOver` either changes nothing or leaves exactly one timer pending,
the new one, due `HOVER_DELAY` later and stored in `hoverTimeout`: every timer
pending before is cancelled, and none of them has the new handle, also when the
stored handle is that of a timer that has already fired. -/
theorem at_most_one_pending_timer (s : State) (event : MouseEvent) (hs : Reachable s) :
    s.timers.length ≤ 1
    ∧ (handleMouseOver s event).timers.length ≤ 1
    ∧ (handleMouseOver s event = s
        ∨ ∃ t, (handleMouseOver s event).timers = [t]
            ∧ t.handle = ⟨s.nextHandle⟩
            ∧ t.deadline = s.clock + HOVER_DELAY
            ∧ (handleMouseOver s event).hoverTimeout = some t.handle
            ∧ ∀ old ∈ s.timers, old.handle ≠ t.handle
                ∧ old ∉ (handleMouseOver s event).timers) := by
  have hinv := inv_of_reachable s hs
  refine ⟨hinv.1, (inv_handleMouseOver s event hinv).1, ?_⟩
  rcases handleMouseOver_eq s event with he | ⟨l, u, _, _, _, _, he⟩
  · exact Or.inl he
  · right
    have hnil := timersAfterCancel_eq_nil s hinv
    refine ⟨⟨⟨s.nextHandle⟩, s.clock + HOVER_DELAY, u, l⟩, ?_, rfl, rfl, ?_, ?_⟩
    · simp [he, tracking, hnil]
    · simp [he, tracking]
    · intro old hold
      have hlt := hinv.2.2.1 old hold
      have hne : old.handle ≠ ⟨s.nextHandle⟩ := by
        intro hc
        rw [hc] at hlt
        simp at hlt
      refine ⟨hne, ?_⟩
      simp only [he, tracking, hnil, List.nil_append, List.mem_singleton]
      intro hc
      exact hne (by rw [hc])

/-- C10 after the example anchor's timer has fired and its handle is still
stored: entering another anchor leaves its one new timer pending. -/
theorem at_most_one_pending_timer_witness :
    (run (State.initial .working)
        [.mouseover ⟨exampleAnchor, []⟩, .elapse 100, .timeout ⟨1⟩]).hoverTimeout = some ⟨1⟩
    ∧ (handleMouseOver (run (State.initial .working)
        [.mouseover ⟨exampleAnchor, []⟩, .elapse 100, .timeout ⟨1⟩])
        ⟨otherAnchor, []⟩).timers.length ≤ 1 :=
  ⟨by decide,
   (at_most_one_pending_timer (run (State.initial .working)
      [.mouseover ⟨exampleAnchor, []⟩, .elapse 100, .timeout ⟨1⟩]) ⟨otherAnchor, []⟩
      ⟨.working, [.mouseover ⟨exampleAnchor, []⟩, .elapse 100, .timeout ⟨1⟩], rfl⟩).2.1⟩

end QuickTabs
